import Mathlib

/-!
# Verification of the ecommerce-api core (cart, checkout, order lifecycle, payments)

Shallow embedding of the repository's core operations:
* `cart/services.py` (`RedisCart`: `_check_stock`, `add`, `remove`, `update`,
  `get_cart_details`, `clear`),
* `orders/views.py` (`OrderListCreateView.create` — checkout,
  `OrderDetailView` — owner-scoped retrieve, `UpdateOrderStatusView.perform_update`
  — admin advance, `CancelOrderView.update` — user cancellation),
* `orders/models.py` (`Order.VALID_STATUS_TRANSITIONS`),
* `payments/views.py` (`stripe_webhook`).

The durable store (products, orders, order items, payments) and the ephemeral
per-user cart store are combined in one `State` record.  Key→value stores
(the product table, the order table, the per-user Redis hashes) are encoded as
association lists; a Redis hash holds each field at most once, so cart lists
carry a key-distinctness hypothesis where the claim needs it.  Fallible
operations return `Except`; Django's `transaction.atomic` rollback is encoded
by having the request handler keep the pre-call state whenever the transaction
body returns an error.  Quantities, prices and ids are natural numbers
(prices are fixed-point decimals in the source; only comparison, `+`, `-`, `*`
are used, so `Nat` is faithful).
-/

namespace ECommerce

/-- Association-list lookup, first binding wins (encodes a key→value store). -/
def lookupA {α : Type} (k : Nat) : List (Nat × α) → Option α
  | [] => none
  | (k', v) :: rest => if k' = k then some v else lookupA k rest

/-- Association-list overwrite-or-append (encodes `HSET` / row update). -/
def setA {α : Type} (k : Nat) (v : α) : List (Nat × α) → List (Nat × α)
  | [] => [(k, v)]
  | (k', v') :: rest => if k' = k then (k, v) :: rest else (k', v') :: setA k v rest

/-- Association-list delete (encodes `HDEL` / key removal); removes every
binding for the key. -/
def eraseA {α : Type} (k : Nat) : List (Nat × α) → List (Nat × α)
  | [] => []
  | (k', v') :: rest => if k' = k then eraseA k rest else (k', v') :: eraseA k rest

/-- Product row (`products/models.py`): name, unit price, available stock. -/
structure Product where
  name : String
  price : Nat
  stock : Nat
deriving DecidableEq, Repr

/-- Order status enum (`orders/models.py` `STATUS_CHOICES`). -/
inductive OrderStatus
  | pending | paid | shipped | delivered | canceled
deriving DecidableEq, Repr

/-- Order row (`orders/models.py`): owning user and status. -/
structure Order where
  user : Nat
  status : OrderStatus
deriving DecidableEq, Repr

/-- OrderItem row (`orders/models.py`): owning order, product, quantity,
price captured at order-creation time. -/
structure OrderItem where
  order : Nat
  product : Nat
  quantity : Nat
  price : Nat
deriving DecidableEq, Repr

/-- Payment status enum (`payments/models.py` `STATUS_CHOICES`). -/
inductive PaymentStatus
  | pending | succeeded | failed | canceled
deriving DecidableEq, Repr

/-- Payment row (`payments/models.py`): order, external intent id, amount,
status. -/
structure Payment where
  order : Nat
  intentId : String
  amount : Nat
  status : PaymentStatus
deriving DecidableEq, Repr

/-- A per-user cart: Redis hash field (product id) → quantity. -/
abbrev Cart := List (Nat × Nat)

/-- Combined system state: the durable store (products, orders, order items,
payments) and the ephemeral cart store (user id → cart hash). -/
structure State where
  products : List (Nat × Product)
  orders : List (Nat × Order)
  orderItems : List OrderItem
  payments : List Payment
  carts : List (Nat × Cart)
deriving DecidableEq, Repr

/-- The cart hash currently stored for a user; an absent key reads as the
empty hash (Redis `HGETALL` on a missing key). -/
def userCart (st : State) (u : Nat) : Cart :=
  (lookupA u st.carts).getD []

/-! ## Basic association-list lemmas -/

theorem lookupA_setA_self {α : Type} (k : Nat) (v : α) (l : List (Nat × α)) :
    lookupA k (setA k v l) = some v := by
  induction l with
  | nil => simp [setA, lookupA]
  | cons hd tl ih =>
    obtain ⟨k', v'⟩ := hd
    by_cases h : k' = k
    · simp [setA, h, lookupA]
    · simp [setA, h, lookupA, ih]

theorem lookupA_setA_ne {α : Type} (k k' : Nat) (v : α) (l : List (Nat × α))
    (h : k' ≠ k) : lookupA k (setA k' v l) = lookupA k l := by
  induction l with
  | nil => simp [setA, lookupA, h]
  | cons hd tl ih =>
    obtain ⟨k'', v''⟩ := hd
    by_cases h2 : k'' = k'
    · subst h2
      simp [setA, lookupA, h]
    · by_cases h3 : k'' = k
      · simp [setA, h2, lookupA, h3, Ne.symm h]
      · simp [setA, h2, lookupA, h3, ih]

theorem lookupA_eraseA_self {α : Type} (k : Nat) (l : List (Nat × α)) :
    lookupA k (eraseA k l) = none := by
  induction l with
  | nil => simp [eraseA, lookupA]
  | cons hd tl ih =>
    obtain ⟨k', v'⟩ := hd
    by_cases h : k' = k
    · simp [eraseA, h, ih]
    · simp [eraseA, h, lookupA, ih]

theorem lookupA_eraseA_ne {α : Type} (k k' : Nat) (l : List (Nat × α))
    (h : k' ≠ k) : lookupA k (eraseA k' l) = lookupA k l := by
  induction l with
  | nil => simp [eraseA, lookupA]
  | cons hd tl ih =>
    obtain ⟨k'', v''⟩ := hd
    by_cases h2 : k'' = k'
    · subst h2
      simp [eraseA, lookupA, h, ih]
    · by_cases h3 : k'' = k
      · simp [eraseA, h2, lookupA, h3, Ne.symm h]
      · simp [eraseA, h2, lookupA, h3, ih]

theorem eraseA_eraseA {α : Type} (k : Nat) (l : List (Nat × α)) :
    eraseA k (eraseA k l) = eraseA k l := by
  induction l with
  | nil => simp [eraseA]
  | cons hd tl ih =>
    obtain ⟨k', v'⟩ := hd
    by_cases h : k' = k
    · simp [eraseA, h, ih]
    · simp [eraseA, h, ih]

theorem setA_setA {α : Type} (k : Nat) (v v' : α) (l : List (Nat × α)) :
    setA k v (setA k v' l) = setA k v l := by
  induction l with
  | nil => simp [setA]
  | cons hd tl ih =>
    obtain ⟨k'', v''⟩ := hd
    by_cases h : k'' = k
    · simp [setA, h]
    · simp [setA, h, ih]

/-! ## EphemeralCart: `cart/services.py` (`RedisCart`) -/

/-- Errors raised by the cart service (`ValidationError` /
`Product.DoesNotExist` in the source). -/
inductive CartError
  | productNotFound (pid : Nat)
  | insufficientStock (pid available : Nat)
deriving DecidableEq, Repr

/-- Embeds `RedisCart._check_stock`: fetch the product (raising if absent) and fail
when the requested quantity exceeds its stock; return the product row. -/
def check_stock (st : State) (pid qty : Nat) : Except CartError Product :=
  match lookupA pid st.products with
  | none => .error (.productNotFound pid)
  | some p =>
    if qty > p.stock then .error (.insufficientStock pid p.stock)
    else .ok p

/-- Embeds `RedisCart.add`: validate via `_check_stock`, read the currently held
quantity (0 when absent), reject when `current + qty` exceeds stock, otherwise
`HINCRBY` the stored quantity. -/
def cartAdd (st : State) (u pid qty : Nat) : Except CartError State :=
  match check_stock st pid qty with
  | .error e => .error e
  | .ok p =>
    let current := (lookupA pid (userCart st u)).getD 0
    let newQty := current + qty
    if newQty > p.stock then .error (.insufficientStock pid p.stock)
    else .ok { st with carts := setA u (setA pid newQty (userCart st u)) st.carts }

/-- Embeds `RedisCart.remove`: `HDEL` of the product field; never fails. -/
def cartRemove (st : State) (u pid : Nat) : State :=
  { st with carts := setA u (eraseA pid (userCart st u)) st.carts }

/-- Embeds `RedisCart.update`: for positive quantity re-validate via `_check_stock`
and `HSET` (overwrite); for quantity 0 delegate to `remove`. -/
def cartUpdate (st : State) (u pid qty : Nat) : Except CartError State :=
  if qty > 0 then
    match check_stock st pid qty with
    | .error e => .error e
    | .ok _ => .ok { st with carts := setA u (setA pid qty (userCart st u)) st.carts }
  else .ok (cartRemove st u pid)

/-- Embeds `RedisCart.clear`: delete the whole per-user hash. -/
def cartClear (st : State) (u : Nat) : State :=
  { st with carts := eraseA u st.carts }

/-- One line of the cart snapshot produced by `get_cart_details`. -/
structure CartLine where
  product_id : Nat
  name : String
  price : Nat
  quantity : Nat
  subtotal : Nat
deriving DecidableEq, Repr

/-- Embeds `RedisCart.get_cart_details` (items view): join each held entry with the
current product row; entries whose product no longer exists in the catalog
are filtered out (`Product.objects.filter(id__in=...)` drops them). -/
def get_cart_details (st : State) (u : Nat) : List CartLine :=
  (userCart st u).filterMap fun e =>
    match lookupA e.1 st.products with
    | none => none
    | some p => some ⟨e.1, p.name, p.price, e.2, p.price * e.2⟩

/-! ## CheckoutCoordinator: `orders/views.py` (`OrderListCreateView.create`) -/

/-- Errors of the checkout flow (`ValidationError` messages in the source). -/
inductive CheckoutError
  | emptyCart
  | productNotFound (pid : Nat)
  | insufficientStock (pid available : Nat)
deriving DecidableEq, Repr

/-- Observable steps of one checkout request, in execution order; used to
state at which point, relative to the transaction commit, the cart is
cleared. -/
inductive Event
  | orderCreated
  | itemReserved (pid : Nat)
  | cartCleared
  | txCommitted
  | txRolledBack
deriving DecidableEq, Repr

/-- Fresh order id assigned by the database on `serializer.save`. -/
def newOrderId (st : State) : Nat :=
  st.orders.foldr (fun e m => max e.1 m) 0 + 1

/-- Body of the per-item loop in `OrderListCreateView.create`: fetch the
product under lock (failing when absent), reject when stock is short
(`product.stock < quantity`), otherwise create the `OrderItem` (capturing
quantity and `product.price`) and decrement the stock. -/
def processItem (st : State) (oid : Nat) (line : CartLine) :
    Except CheckoutError State :=
  match lookupA line.product_id st.products with
  | none => .error (.productNotFound line.product_id)
  | some p =>
    if p.stock < line.quantity then
      .error (.insufficientStock line.product_id p.stock)
    else
      .ok { st with
        orderItems := st.orderItems ++
          [⟨oid, line.product_id, line.quantity, p.price⟩],
        products :=
          setA line.product_id { p with stock := p.stock - line.quantity }
            st.products }

/-- The per-item loop of `OrderListCreateView.create`, also recording one
`itemReserved` event per successfully processed line. -/
def processItems (st : State) (oid : Nat) :
    List CartLine → Except CheckoutError State × List Event
  | [] => (.ok st, [])
  | line :: rest =>
    match processItem st oid line with
    | .error e => (.error e, [])
    | .ok st' =>
      let r := processItems st' oid rest
      (r.1, .itemReserved line.product_id :: r.2)

/-- Embeds `OrderListCreateView.create` (checkout): read the cart snapshot, fail on
an empty cart, then inside `transaction.atomic()` create the `pending` Order,
run the per-item loop, and — still inside the transaction block — clear the
cart; the commit happens on leaving the block.  A `ValidationError` anywhere
inside the block rolls the transaction back, so the handler's resulting state
on error is the pre-call state.  Returns (result, post-state, event trace). -/
def checkoutCreate (st : State) (u : Nat) :
    Except CheckoutError Nat × State × List Event :=
  let items := get_cart_details st u
  if items.isEmpty then (.error .emptyCart, st, [])
  else
    let oid := newOrderId st
    let st0 := { st with orders := setA oid ⟨u, OrderStatus.pending⟩ st.orders }
    match processItems st0 oid items with
    | (.error e, evs) => (.error e, st, Event.orderCreated :: evs ++ [.txRolledBack])
    | (.ok st1, evs) =>
      (.ok oid, cartClear st1 u,
        Event.orderCreated :: evs ++ [.cartCleared, .txCommitted])

/-! ## OrderStateMachine: `orders/views.py`, `orders/models.py` -/

/-- Embeds `Order.VALID_STATUS_TRANSITIONS` from `orders/models.py`. -/
def VALID_STATUS_TRANSITIONS : OrderStatus → List OrderStatus
  | .pending => [.paid, .canceled]
  | .paid => [.shipped, .canceled]
  | .shipped => [.delivered]
  | .delivered => []
  | .canceled => []

/-- Errors of the admin status-advance operation. -/
inductive AdvanceError
  | notFound
  | invalidTransition (fromStatus toStatus : OrderStatus)
deriving DecidableEq, Repr

/-- Embeds `UpdateOrderStatusView.perform_update`: look the order up (404 when
absent), check the requested status against `VALID_STATUS_TRANSITIONS` for
the current status, and persist it when allowed. -/
def advanceStatus (st : State) (oid : Nat) (newStatus : OrderStatus) :
    Except AdvanceError State :=
  match lookupA oid st.orders with
  | none => .error .notFound
  | some o =>
    if newStatus ∈ VALID_STATUS_TRANSITIONS o.status then
      .ok { st with orders := setA oid { o with status := newStatus } st.orders }
    else .error (.invalidTransition o.status newStatus)

/-- Errors of user cancellation (`CancelOrderView.update`). -/
inductive CancelError
  | notFound
  | invalidState
  | productMissing (pid : Nat)
deriving DecidableEq, Repr

/-- The restock loop of `CancelOrderView.update`: for every item of the
order, fetch its product under lock (a missing product raises, rolling the
transaction back) and add the item quantity back to its stock. -/
def restoreItems (st : State) : List OrderItem → Except CancelError State
  | [] => .ok st
  | item :: rest =>
    match lookupA item.product st.products with
    | none => .error (.productMissing item.product)
    | some p =>
      restoreItems
        { st with
          products := setA item.product { p with stock := p.stock + item.quantity }
            st.products }
        rest

/-- Embeds `CancelOrderView.update`: the order is looked up in the owner-scoped
queryset (404 when absent or owned by someone else); inside
`transaction.atomic()` a non-`pending` status raises, otherwise every item's
quantity is restored to its product's stock and the status is set to
`canceled`; an error rolls everything back, so the handler keeps the
pre-call state on error. -/
def cancelOrder (st : State) (u oid : Nat) : Except CancelError State :=
  match lookupA oid st.orders with
  | none => .error .notFound
  | some o =>
    if o.user ≠ u then .error .notFound
    else if o.status ≠ OrderStatus.pending then .error .invalidState
    else
      match restoreItems st (st.orderItems.filter fun it => it.order = oid) with
      | .error e => .error e
      | .ok st1 =>
        .ok { st1 with orders := setA oid { o with status := OrderStatus.canceled } st1.orders }

/-- Embeds `OrderDetailView`: retrieval against the owner-scoped queryset
(`Order.objects.filter(user=request.user)` then lookup by pk); `none` encodes
the 404 response. -/
def retrieveOrder (st : State) (u oid : Nat) : Option Order :=
  match lookupA oid st.orders with
  | none => none
  | some o => if o.user = u then some o else none

/-! ## Payment webhook: `payments/views.py` (`stripe_webhook`) -/

/-- A verified Stripe event as the webhook sees it: type string, payment
intent id, and the optional `metadata.order_id`. -/
structure WebhookEvent where
  type : String
  intentId : String
  orderId : Option Nat
deriving DecidableEq, Repr

/-- The `Payment.objects.filter(stripe_payment_intent_id=...).update(status=...)`
queryset update: set the status of every matching payment row, touching
nothing else; affecting zero rows is not an error. -/
def updatePaymentStatus (st : State) (intentId : String)
    (newStatus : PaymentStatus) : State :=
  { st with
    payments := st.payments.map fun p =>
      if p.intentId = intentId then { p with status := newStatus } else p }

/-- Embeds `stripe_webhook` after signature verification: dispatch on the event
type.  `payment_intent.succeeded` with an order id loads the order (400 when
absent) and sets its status to `paid`, then marks matching payments
`succeeded`; `payment_intent.payment_failed` / `payment_intent.canceled` only
update matching payment rows; anything else is ignored.  Returns the HTTP
status code and the resulting state. -/
def stripe_webhook (st : State) (ev : WebhookEvent) : Nat × State :=
  if ev.type = "payment_intent.succeeded" then
    match ev.orderId with
    | none => (200, st)
    | some oid =>
      match lookupA oid st.orders with
      | none => (400, st)
      | some o =>
        let st1 := { st with orders := setA oid { o with status := OrderStatus.paid } st.orders }
        (200, updatePaymentStatus st1 ev.intentId .succeeded)
  else if ev.type = "payment_intent.payment_failed" then
    (200, updatePaymentStatus st ev.intentId .failed)
  else if ev.type = "payment_intent.canceled" then
    (200, updatePaymentStatus st ev.intentId .canceled)
  else (200, st)

/-! ## Concrete states used by witnesses and counterexamples -/

/-- Catalog product with stock 10. -/
def productA : Product := ⟨"A", 100, 10⟩

/-- Catalog product with stock 50. -/
def productB : Product := ⟨"B", 50, 50⟩

/-- User 7 holds 2 of product 1 (stock 10) and 100 of product 2 (stock 50):
the second cart line exceeds the available stock. -/
def stOverfull : State :=
  ⟨[(1, productA), (2, productB)], [], [], [], [(7, [(1, 2), (2, 100)])]⟩

/-- User 7 holds 3 of product 1 (stock 10): a fully valid one-line cart. -/
def stSmall : State := ⟨[(1, productA)], [], [], [], [(7, [(1, 3)])]⟩

/-- Order 1 (user 7) already `shipped`, with one pending payment row. -/
def stShipped : State :=
  ⟨[], [(1, ⟨7, OrderStatus.shipped⟩)], [], [⟨1, "pi_1", 100, PaymentStatus.pending⟩], []⟩

/-- Order 1 `pending` and order 2 `paid`, both owned by user 7. -/
def stTwoOrders : State :=
  ⟨[], [(1, ⟨7, OrderStatus.pending⟩), (2, ⟨7, OrderStatus.paid⟩)], [], [], []⟩

/-- A pending order (id 1, user 7) with one item of 3 units of product 1,
whose current stock is 7. -/
def stCancel : State :=
  ⟨[(1, ⟨"A", 100, 7⟩)], [(1, ⟨7, OrderStatus.pending⟩)], [⟨1, 1, 3, 100⟩], [], []⟩

/-- A catalog with product 1 but no cart stored for any user. -/
def stNoCart : State := ⟨[(1, productA)], [], [], [], []⟩

/-- User 7 already holds 9 of product 1 (stock 10). -/
def stHeld9 : State := ⟨[(1, productA)], [], [], [], [(7, [(1, 9)])]⟩

/-- Order 1 owned by user 2, plus two payment rows, one matching intent
`pi_1`. -/
def stPayments : State :=
  ⟨[(1, productA)], [(1, ⟨2, OrderStatus.pending⟩)], [],
    [⟨1, "pi_1", 100, PaymentStatus.pending⟩, ⟨1, "pi_2", 100, PaymentStatus.pending⟩], []⟩

/-! ## Claim C2 — webhook `succeeded` on a non-pending order -/

/-- C2: the claim says a `payment_intent.succeeded` event leaves any
non-`pending` order unchanged.  The code (`payments/views.py` lines 72–87)
sets `order.status = 'paid'` unconditionally: on a `shipped` order the
webhook regresses the status to `paid`, contradicting the claim (and the
spec's stated intent). -/
theorem webhook_succeeded_regresses_shipped_order :
    lookupA 1 stShipped.orders = some ⟨7, OrderStatus.shipped⟩ ∧
    lookupA 1 ((stripe_webhook stShipped
        ⟨"payment_intent.succeeded", "pi_1", some 1⟩).2).orders =
      some ⟨7, OrderStatus.paid⟩ := by
  constructor <;> rfl

/-! ## Claim C4 — admin advance to `canceled` -/

/-- C4: the claim says `advance(order_id, 'canceled')` is rejected for every
current status.  The transition table in `orders/models.py` lists `canceled`
among the allowed successors of both `pending` and `paid`, so the advance
succeeds from either status and persists `canceled` — contradicting the
claim and the repository's own test `test_update_status_to_canceled_fails`. -/
theorem advance_to_canceled_succeeds :
    advanceStatus stTwoOrders 1 OrderStatus.canceled =
      .ok { stTwoOrders with
        orders := [(1, ⟨7, OrderStatus.canceled⟩), (2, ⟨7, OrderStatus.paid⟩)] } ∧
    advanceStatus stTwoOrders 2 OrderStatus.canceled =
      .ok { stTwoOrders with
        orders := [(1, ⟨7, OrderStatus.pending⟩), (2, ⟨7, OrderStatus.canceled⟩)] } := by
  constructor <;> rfl

/-! ## Claim C9 — owner-scoped order retrieval -/

/-- C9: retrieval is evaluated against the owner-filtered queryset, so a
lookup of an order owned by a different user produces exactly the not-found
outcome, identical to looking up an id that matches no order at all. -/
theorem retrieve_cross_owner_is_not_found (st : State) (u oid k : Nat)
    (o : Order) (hex : lookupA oid st.orders = some o) (hown : o.user ≠ u)
    (hmiss : lookupA k st.orders = none) :
    retrieveOrder st u oid = none ∧
    retrieveOrder st u oid = retrieveOrder st u k := by
  unfold retrieveOrder
  rw [hex, hmiss]
  simp [hown]

/-- Witness for C9: order 1 belongs to user 2; user 7's lookup of order 1 is
observably identical to a lookup of the nonexistent order 99. -/
theorem retrieve_cross_owner_is_not_found_witness :
    retrieveOrder stPayments 7 1 = none ∧
    retrieveOrder stPayments 7 1 = retrieveOrder stPayments 7 99 :=
  retrieve_cross_owner_is_not_found stPayments 7 1 99 ⟨2, OrderStatus.pending⟩
    rfl (by decide) rfl

/-! ## Claim C10 — frame of `payment_failed` / `canceled` webhook events -/

/-- Pointwise-identity maps leave a list unchanged. -/
theorem map_eq_self_of_forall {α : Type} (f : α → α) (l : List α)
    (h : ∀ a ∈ l, f a = a) : l.map f = l := by
  induction l with
  | nil => rfl
  | cons hd tl ih =>
    simp only [List.map_cons]
    rw [h hd (List.mem_cons_self hd tl), ih fun a ha => h a (List.mem_cons_of_mem hd ha)]

/-- C10: a `payment_intent.payment_failed` or `payment_intent.canceled`
event returns HTTP 200 and mutates only the status field of the payment rows
whose intent id matches: orders, order items, products and carts are
untouched, every payment keeps its order/intent/amount, non-matching payment
rows are fully unchanged, and when no row matches the state is unchanged
altogether. -/
theorem webhook_failed_canceled_frame (st : State) (ev : WebhookEvent)
    (h : ev.type = "payment_intent.payment_failed" ∨
      ev.type = "payment_intent.canceled") :
    (stripe_webhook st ev).1 = 200 ∧
    (stripe_webhook st ev).2.orders = st.orders ∧
    (stripe_webhook st ev).2.orderItems = st.orderItems ∧
    (stripe_webhook st ev).2.products = st.products ∧
    (stripe_webhook st ev).2.carts = st.carts ∧
    (∀ i : Nat, ∀ p : Payment, st.payments[i]? = some p →
      ∃ q : Payment, (stripe_webhook st ev).2.payments[i]? = some q ∧
        q.order = p.order ∧ q.intentId = p.intentId ∧ q.amount = p.amount ∧
        (p.intentId ≠ ev.intentId → q = p)) ∧
    ((∀ p ∈ st.payments, p.intentId ≠ ev.intentId) →
      (stripe_webhook st ev).2 = st) := by
  have hs : ev.type ≠ "payment_intent.succeeded" := by
    rcases h with h | h <;> rw [h] <;> decide
  have hbody : ∃ ns : PaymentStatus,
      stripe_webhook st ev = (200, updatePaymentStatus st ev.intentId ns) := by
    rcases h with h | h
    · exact ⟨.failed, by rw [stripe_webhook, if_neg hs, if_pos h]⟩
    · have hf : ev.type ≠ "payment_intent.payment_failed" := by rw [h]; decide
      exact ⟨.canceled, by rw [stripe_webhook, if_neg hs, if_neg hf, if_pos h]⟩
  obtain ⟨ns, hr⟩ := hbody
  rw [hr]
  refine ⟨rfl, rfl, rfl, rfl, rfl, ?_, ?_⟩
  · intro i p hp
    refine ⟨if p.intentId = ev.intentId then { p with status := ns } else p, ?_, ?_⟩
    · simp [updatePaymentStatus, List.getElem?_map, hp]
    · by_cases hm : p.intentId = ev.intentId <;> simp [hm]
  · intro hnone
    show State.mk _ _ _ _ _ = st
    have : st.payments.map (fun p =>
        if p.intentId = ev.intentId then { p with status := ns } else p) =
        st.payments :=
      map_eq_self_of_forall _ _ fun p hp => by simp [hnone p hp]
    simp [updatePaymentStatus, this]

/-- Witness for C10: a `payment_intent.payment_failed` event against a state
with one matching and one non-matching payment row returns 200 and leaves the
order table unchanged. -/
theorem webhook_failed_canceled_frame_witness :
    (stripe_webhook stPayments ⟨"payment_intent.payment_failed", "pi_1", none⟩).1 = 200 ∧
    (stripe_webhook stPayments ⟨"payment_intent.payment_failed", "pi_1", none⟩).2.orders =
      stPayments.orders :=
  ⟨(webhook_failed_canceled_frame stPayments
      ⟨"payment_intent.payment_failed", "pi_1", none⟩ (Or.inl rfl)).1,
   (webhook_failed_canceled_frame stPayments
      ⟨"payment_intent.payment_failed", "pi_1", none⟩ (Or.inl rfl)).2.1⟩

/-! ## Claim C7 — cumulative cart `add` -/

/-- C7: `add(product_id, qty)` succeeds exactly when the product exists and
the held quantity plus `qty` stays within the product's stock; on success the
stored quantity becomes the previous held quantity plus `qty`, and when the
sum would exceed stock the call fails with the insufficient-stock error. -/
theorem cart_add_spec (st : State) (u pid qty : Nat) :
    ((∃ st', cartAdd st u pid qty = .ok st') ↔
      ∃ p, lookupA pid st.products = some p ∧
        (lookupA pid (userCart st u)).getD 0 + qty ≤ p.stock) ∧
    (∀ st', cartAdd st u pid qty = .ok st' →
      lookupA pid (userCart st' u) =
        some ((lookupA pid (userCart st u)).getD 0 + qty)) ∧
    (∀ p, lookupA pid st.products = some p →
      p.stock < (lookupA pid (userCart st u)).getD 0 + qty →
      cartAdd st u pid qty = .error (.insufficientStock pid p.stock)) := by
  cases hl : lookupA pid st.products with
  | none =>
    have hadd : cartAdd st u pid qty = .error (.productNotFound pid) := by
      simp [cartAdd, check_stock, hl]
    refine ⟨⟨?_, ?_⟩, ?_, ?_⟩
    · rintro ⟨st', hst'⟩
      rw [hadd] at hst'
      exact Except.noConfusion hst'
    · rintro ⟨p, hp, -⟩
      exact Option.noConfusion hp
    · intro st' hst'
      rw [hadd] at hst'
      exact Except.noConfusion hst'
    · intro p hp
      exact Option.noConfusion hp
  | some p =>
    by_cases h2 : p.stock < (lookupA pid (userCart st u)).getD 0 + qty
    · have hadd : cartAdd st u pid qty = .error (.insufficientStock pid p.stock) := by
        by_cases h1 : p.stock < qty
        · simp [cartAdd, check_stock, hl, h1]
        · have h1' : ¬ qty > p.stock := h1
          have h2' : (lookupA pid (userCart st u)).getD 0 + qty > p.stock := h2
          simp [cartAdd, check_stock, hl, h1', h2']
      refine ⟨⟨?_, ?_⟩, ?_, ?_⟩
      · rintro ⟨st', hst'⟩
        rw [hadd] at hst'
        exact Except.noConfusion hst'
      · rintro ⟨p', hp', hle⟩
        injection hp' with hp'
        subst hp'
        omega
      · intro st' hst'
        rw [hadd] at hst'
        exact Except.noConfusion hst'
      · intro p' hp' hlt
        injection hp' with hp'
        subst hp'
        exact hadd
    · have h1' : ¬ qty > p.stock := by omega
      have h2' : ¬ (lookupA pid (userCart st u)).getD 0 + qty > p.stock := h2
      have hadd : cartAdd st u pid qty = .ok { st with
          carts := setA u (setA pid ((lookupA pid (userCart st u)).getD 0 + qty)
            (userCart st u)) st.carts } := by
        simp [cartAdd, check_stock, hl, h1', h2']
      refine ⟨⟨?_, ?_⟩, ?_, ?_⟩
      · intro h3
        exact ⟨p, rfl, by omega⟩
      · intro h3
        exact ⟨_, hadd⟩
      · intro st' hst'
        rw [hadd] at hst'
        injection hst' with hst'
        subst hst'
        simp [userCart, lookupA_setA_self]
      · intro p' hp' hlt
        injection hp' with hp'
        subst hp'
        omega

/-- Witness for C7: with 9 units already held and stock 10, adding 2 more
fails with the insufficient-stock error; with 3 held, adding 2 stores 5. -/
theorem cart_add_spec_witness :
    cartAdd stHeld9 7 1 2 = .error (.insufficientStock 1 10) ∧
    lookupA 1 (userCart { stSmall with
      carts := setA 7 (setA 1 5 (userCart stSmall 7)) stSmall.carts } 7) = some 5 :=
  ⟨(cart_add_spec stHeld9 7 1 2).2.2 ⟨"A", 100, 10⟩ rfl (by decide),
   (cart_add_spec stSmall 7 1 2).2.1 _ rfl⟩

/-! ## Claim C8 — cart `update`: quantity 0 removes, positive overwrites -/

/-- C8: `update(product_id, 0)` delegates to `remove`: it deletes the entry,
succeeds even when the entry is absent, and is idempotent; `update` with a
positive quantity re-validates against current stock and overwrites the
stored quantity. -/
theorem cart_update_spec (st : State) (u pid : Nat) :
    cartUpdate st u pid 0 = .ok (cartRemove st u pid) ∧
    lookupA pid (userCart (cartRemove st u pid) u) = none ∧
    cartUpdate (cartRemove st u pid) u pid 0 = .ok (cartRemove st u pid) ∧
    (∀ qty, 0 < qty →
      ((∃ st', cartUpdate st u pid qty = .ok st') ↔
        ∃ p, lookupA pid st.products = some p ∧ qty ≤ p.stock)) ∧
    (∀ qty st', 0 < qty → cartUpdate st u pid qty = .ok st' →
      lookupA pid (userCart st' u) = some qty) := by
  have hrem : ∀ s : State, cartUpdate s u pid 0 = .ok (cartRemove s u pid) := by
    intro s
    simp [cartUpdate]
  have huc : userCart (cartRemove st u pid) u = eraseA pid (userCart st u) := by
    simp [cartRemove, userCart, lookupA_setA_self]
  refine ⟨hrem st, ?_, ?_, ?_, ?_⟩
  · rw [huc, lookupA_eraseA_self]
  · rw [hrem (cartRemove st u pid)]
    have : cartRemove (cartRemove st u pid) u pid = cartRemove st u pid := by
      show ({ cartRemove st u pid with
        carts := setA u (eraseA pid (userCart (cartRemove st u pid) u))
          (cartRemove st u pid).carts } : State) = _
      rw [huc, eraseA_eraseA]
      simp [cartRemove, setA_setA]
    rw [this]
  · intro qty hqty
    have hpos : qty > 0 := hqty
    constructor
    · rintro ⟨st', hst'⟩
      cases hl : lookupA pid st.products with
      | none =>
        have hbad : cartUpdate st u pid qty = .error (.productNotFound pid) := by
          simp [cartUpdate, hpos, check_stock, hl]
        rw [hbad] at hst'
        exact Except.noConfusion hst'
      | some p =>
        refine ⟨p, rfl, ?_⟩
        by_cases h1 : qty > p.stock
        · have hbad : cartUpdate st u pid qty =
              .error (.insufficientStock pid p.stock) := by
            simp [cartUpdate, hpos, check_stock, hl, h1]
          rw [hbad] at hst'
          exact Except.noConfusion hst'
        · omega
    · rintro ⟨p, hp, hle⟩
      have h1 : ¬ qty > p.stock := by omega
      have hok : cartUpdate st u pid qty = .ok { st with
          carts := setA u (setA pid qty (userCart st u)) st.carts } := by
        simp [cartUpdate, hpos, check_stock, hp, h1]
      exact ⟨_, hok⟩
  · intro qty st' hqty hst'
    cases hl : lookupA pid st.products with
    | none =>
      have hbad : cartUpdate st u pid qty = .error (.productNotFound pid) := by
        simp [cartUpdate, hqty, check_stock, hl]
      rw [hbad] at hst'
      exact Except.noConfusion hst'
    | some p =>
      by_cases h1 : qty > p.stock
      · have hbad : cartUpdate st u pid qty =
            .error (.insufficientStock pid p.stock) := by
          simp [cartUpdate, hqty, check_stock, hl, h1]
        rw [hbad] at hst'
        exact Except.noConfusion hst'
      · have hok : cartUpdate st u pid qty = .ok { st with
            carts := setA u (setA pid qty (userCart st u)) st.carts } := by
          simp [cartUpdate, hqty, check_stock, hl, h1]
        rw [hok] at hst'
        injection hst' with hst'
        subst hst'
        simp [userCart, lookupA_setA_self]

/-- Witness for C8: with 9 units of product 1 held by user 7, `update` to
quantity 2 overwrites the stored quantity to exactly 2. -/
theorem cart_update_spec_witness :
    lookupA 1 (userCart { stHeld9 with
      carts := setA 7 (setA 1 2 (userCart stHeld9 7)) stHeld9.carts } 7) = some 2 :=
  (cart_update_spec stHeld9 7 1).2.2.2.2 2 _ (by decide) rfl

/-! ## Checkout helper lemmas -/

/-- A snapshot line that fails the per-item validation of the checkout loop:
its product is missing from the catalog, or its quantity exceeds the
product's stock. -/
def lineFails (st : State) (l : CartLine) : Bool :=
  match lookupA l.product_id st.products with
  | none => true
  | some p => decide (p.stock < l.quantity)

/-- Processing one line never repairs another line's validation failure:
stock only decreases and missing products stay missing. -/
theorem lineFails_processItem (st st' : State) (oid : Nat) (line l : CartLine)
    (h : processItem st oid line = .ok st') (hf : lineFails st l = true) :
    lineFails st' l = true := by
  cases hl : lookupA line.product_id st.products with
  | none =>
    have hbad : processItem st oid line = .error (.productNotFound line.product_id) := by
      simp [processItem, hl]
    rw [hbad] at h
    exact Except.noConfusion h
  | some p =>
    by_cases hs : p.stock < line.quantity
    · have hbad : processItem st oid line =
          .error (.insufficientStock line.product_id p.stock) := by
        simp [processItem, hl, hs]
      rw [hbad] at h
      exact Except.noConfusion h
    · have hok : processItem st oid line = .ok { st with
          orderItems := st.orderItems ++
            [⟨oid, line.product_id, line.quantity, p.price⟩],
          products := setA line.product_id { p with stock := p.stock - line.quantity }
            st.products } := by
        simp [processItem, hl, hs]
      rw [hok] at h
      injection h with h
      subst h
      by_cases he : line.product_id = l.product_id
      · have hl' : lookupA l.product_id st.products = some p := he ▸ hl
        have hfs : p.stock < l.quantity := by
          simpa [lineFails, hl'] using hf
        simp [lineFails, ← he, lookupA_setA_self]
        omega
      · simp only [lineFails] at hf ⊢
        rw [lookupA_setA_ne _ _ _ _ he]
        exact hf

/-- If some line of the batch fails validation against the state at entry,
the item loop reports an error. -/
theorem processItems_error_of_fails (items : List CartLine) :
    ∀ st oid, (∃ l ∈ items, lineFails st l = true) →
      ∃ e, (processItems st oid items).1 = .error e := by
  induction items with
  | nil =>
    rintro st oid ⟨l, hl, -⟩
    cases hl
  | cons hd tl ih =>
    rintro st oid ⟨l, hl, hf⟩
    cases hp : processItem st oid hd with
    | error e => exact ⟨e, by simp [processItems, hp]⟩
    | ok st1 =>
      rcases List.mem_cons.mp hl with rfl | hmem
      · exfalso
        cases hh : lookupA l.product_id st.products with
        | none =>
          have hbad : processItem st oid l =
              .error (.productNotFound l.product_id) := by
            simp [processItem, hh]
          rw [hbad] at hp
          exact Except.noConfusion hp
        | some p =>
          have hfs : p.stock < l.quantity := by
            simpa [lineFails, hh] using hf
          have hbad : processItem st oid l =
              .error (.insufficientStock l.product_id p.stock) := by
            simp [processItem, hh, hfs]
          rw [hbad] at hp
          exact Except.noConfusion hp
      · have hf1 : lineFails st1 l = true :=
          lineFails_processItem st st1 oid hd l hp hf
        obtain ⟨e, he⟩ := ih st1 oid ⟨l, hmem, hf1⟩
        exact ⟨e, by simp [processItems, hp, he]⟩

/-- Every event emitted by the item loop is an `itemReserved` event. -/
theorem processItems_events_reserved (items : List CartLine) :
    ∀ st oid e, e ∈ (processItems st oid items).2 →
      ∃ pid, e = Event.itemReserved pid := by
  induction items with
  | nil =>
    intro st oid e he
    simp [processItems] at he
  | cons hd tl ih =>
    intro st oid e he
    cases hp : processItem st oid hd with
    | error e0 => simp [processItems, hp] at he
    | ok st1 =>
      simp only [processItems, hp] at he
      rcases List.mem_cons.mp he with rfl | he
      · exact ⟨hd.product_id, rfl⟩
      · exact ih st1 oid e he

/-- On success the item loop emits exactly one `itemReserved` event per line,
in order. -/
theorem processItems_ok_events (items : List CartLine) :
    ∀ st oid st', (processItems st oid items).1 = .ok st' →
      (processItems st oid items).2 =
        items.map fun l => Event.itemReserved l.product_id := by
  induction items with
  | nil =>
    intro st oid st' h
    simp [processItems]
  | cons hd tl ih =>
    intro st oid st' h
    cases hp : processItem st oid hd with
    | error e0 =>
      rw [show processItems st oid (hd :: tl) = (.error e0, []) from by
        simp [processItems, hp]] at h
      exact Except.noConfusion h
    | ok st1 =>
      have h2 : (processItems st1 oid tl).1 = .ok st' := by
        simpa [processItems, hp] using h
      simp [processItems, hp, ih st1 oid st' h2]

/-! ## Claim C1 — checkout is all-or-nothing -/

/-- C1: whenever the cart snapshot contains a line that fails validation
(product missing from the catalog, or quantity above stock), checkout returns
an error, and the resulting state is exactly the pre-call state: no Order, no
OrderItem, no stock decrement and no cart change persists
(`transaction.atomic` rolls everything back and `cart.clear()` is never
reached). -/
theorem checkout_all_or_nothing (st : State) (u : Nat)
    (h : ∃ l ∈ get_cart_details st u, lineFails st l = true) :
    (∃ e, (checkoutCreate st u).1 = .error e) ∧
    (checkoutCreate st u).2.1 = st := by
  obtain ⟨l, hmem, hf⟩ := h
  have hne : (get_cart_details st u).isEmpty = false := by
    cases hi : get_cart_details st u with
    | nil =>
      rw [hi] at hmem
      cases hmem
    | cons a as => rfl
  have hf0 : lineFails { st with
      orders := setA (newOrderId st) ⟨u, OrderStatus.pending⟩ st.orders } l = true := hf
  obtain ⟨e, he⟩ := processItems_error_of_fails (get_cart_details st u)
    { st with orders := setA (newOrderId st) ⟨u, OrderStatus.pending⟩ st.orders }
    (newOrderId st) ⟨l, hmem, hf0⟩
  cases hr : processItems
      { st with orders := setA (newOrderId st) ⟨u, OrderStatus.pending⟩ st.orders }
      (newOrderId st) (get_cart_details st u) with
  | mk r evs =>
    rw [hr] at he
    cases r with
    | ok st1 => exact Except.noConfusion he
    | error e0 =>
      have hc : checkoutCreate st u =
          (.error e0, st, Event.orderCreated :: evs ++ [.txRolledBack]) := by
        simp [checkoutCreate, hne, hr]
      exact ⟨⟨e0, by rw [hc]⟩, by rw [hc]⟩

/-- Witness for C1: user 7's cart holds 2 of product 1 (stock 10) and 100 of
product 2 (stock 50); checkout fails and the state is exactly as before. -/
theorem checkout_all_or_nothing_witness :
    (∃ e, (checkoutCreate stOverfull 7).1 = .error e) ∧
    (checkoutCreate stOverfull 7).2.1 = stOverfull :=
  checkout_all_or_nothing stOverfull 7 (by decide)

/-! ## Claim C3 — when is the cart cleared relative to the commit point? -/

/-- C3 counterexample: in a successful checkout the `cart.clear()` call sits
inside the `transaction.atomic()` block, so the clear event precedes the
commit event — the clear does not happen strictly after the commit point as
the claim states. -/
theorem checkout_clear_precedes_commit_cex :
    (checkoutCreate stSmall 7).1 = .ok 1 ∧
    (checkoutCreate stSmall 7).2.2 =
      [Event.orderCreated, Event.itemReserved 1, Event.cartCleared,
        Event.txCommitted] ∧
    List.indexOf Event.cartCleared (checkoutCreate stSmall 7).2.2 <
      List.indexOf Event.txCommitted (checkoutCreate stSmall 7).2.2 :=
  ⟨rfl, rfl, by decide⟩

/-- C3 (amended): the cart is cleared only in executions in which every step
of the transaction body succeeded, after all per-line reservation steps and
immediately before (not after) the commit; in every execution in which a
step fails, the transaction rolls back and the state — the cart included —
is exactly the pre-call state. -/
theorem checkout_clear_only_on_success (st : State) (u : Nat) :
    (∀ e, (checkoutCreate st u).1 = .error e → (checkoutCreate st u).2.1 = st) ∧
    (∀ oid, (checkoutCreate st u).1 = .ok oid →
      (checkoutCreate st u).2.2 =
        Event.orderCreated ::
          (get_cart_details st u).map (fun l => Event.itemReserved l.product_id) ++
          [Event.cartCleared, Event.txCommitted]) ∧
    (Event.cartCleared ∈ (checkoutCreate st u).2.2 →
      ∃ oid, (checkoutCreate st u).1 = .ok oid) := by
  by_cases hne : (get_cart_details st u).isEmpty = true
  · have hc : checkoutCreate st u = (.error .emptyCart, st, []) := by
      simp [checkoutCreate, hne]
    refine ⟨?_, ?_, ?_⟩
    · intro e he
      rw [hc]
    · intro oid hoid
      rw [hc] at hoid
      exact Except.noConfusion hoid
    · intro hm
      rw [hc] at hm
      cases hm
  · have hne' : (get_cart_details st u).isEmpty = false := by
      simpa using hne
    cases hr : processItems
        { st with orders := setA (newOrderId st) ⟨u, OrderStatus.pending⟩ st.orders }
        (newOrderId st) (get_cart_details st u) with
    | mk r evs =>
      cases r with
      | error e0 =>
        have hc : checkoutCreate st u =
            (.error e0, st, Event.orderCreated :: evs ++ [.txRolledBack]) := by
          simp [checkoutCreate, hne', hr]
        refine ⟨?_, ?_, ?_⟩
        · intro e he
          rw [hc]
        · intro oid hoid
          rw [hc] at hoid
          exact Except.noConfusion hoid
        · intro hm
          exfalso
          rw [hc] at hm
          simp at hm
          obtain ⟨pid, hpid⟩ := processItems_events_reserved
            (get_cart_details st u) _ (newOrderId st) Event.cartCleared
            (by rw [hr]; exact hm)
          exact Event.noConfusion hpid
      | ok st1 =>
        have hc : checkoutCreate st u =
            (.ok (newOrderId st), cartClear st1 u,
              Event.orderCreated :: evs ++ [.cartCleared, .txCommitted]) := by
          simp [checkoutCreate, hne', hr]
        have hevs : evs =
            (get_cart_details st u).map fun l => Event.itemReserved l.product_id := by
          have := processItems_ok_events (get_cart_details st u)
            { st with orders := setA (newOrderId st) ⟨u, OrderStatus.pending⟩ st.orders }
            (newOrderId st) st1 (by rw [hr])
          rw [hr] at this
          exact this
        refine ⟨?_, ?_, ?_⟩
        · intro e he
          rw [hc] at he
          exact Except.noConfusion he
        · intro oid hoid
          rw [hc, hevs]
        · intro hm
          exact ⟨newOrderId st, by rw [hc]⟩

/-- Witness for C3's amended theorem: the overfull cart checkout leaves the
state untouched, and the valid one-line checkout emits exactly the
reservation, clear and commit events in order. -/
theorem checkout_clear_only_on_success_witness :
    (checkoutCreate stOverfull 7).2.1 = stOverfull ∧
    (checkoutCreate stSmall 7).2.2 =
      [Event.orderCreated, Event.itemReserved 1, Event.cartCleared,
        Event.txCommitted] :=
  ⟨(checkout_clear_only_on_success stOverfull 7).1
      (.insufficientStock 2 50) rfl,
   (checkout_clear_only_on_success stSmall 7).2.1 1 rfl⟩

/-! ## Claim C6 — successful checkout -/

/-- A snapshot line that passes the checkout validation: its product exists
and its stock covers the line quantity. -/
def lineOk (st : State) (l : CartLine) : Bool :=
  match lookupA l.product_id st.products with
  | none => false
  | some p => decide (l.quantity ≤ p.stock)

/-- Every snapshot line refers to an existing product and carries that
product's current unit price (`get_cart_details` joins with the catalog and
drops deleted products). -/
theorem mem_get_cart_details (st : State) (u : Nat) (l : CartLine)
    (h : l ∈ get_cart_details st u) :
    ∃ p, lookupA l.product_id st.products = some p ∧ l.price = p.price := by
  simp only [get_cart_details, List.mem_filterMap] at h
  obtain ⟨e, he, hmatch⟩ := h
  cases hl : lookupA e.1 st.products with
  | none =>
    rw [hl] at hmatch
    exact Option.noConfusion hmatch
  | some p =>
    rw [hl] at hmatch
    have hmatch' : some (⟨e.1, p.name, p.price, e.2, p.price * e.2⟩ : CartLine) =
        some l := hmatch
    injection hmatch' with hmatch'
    subst hmatch'
    exact ⟨p, hl, rfl⟩

/-- Success of the checkout item loop on a batch of valid lines over
pairwise-distinct products: it reserves each line in order, decrementing
each product's stock by the line quantity, appending one OrderItem per line
with the line's captured price, and touching nothing else. -/
theorem processItems_ok_spec (items : List CartLine) :
    ∀ st oid,
      (items.map CartLine.product_id).Nodup →
      (∀ l ∈ items, ∃ p, lookupA l.product_id st.products = some p ∧
        l.price = p.price ∧ l.quantity ≤ p.stock) →
      ∃ st', (processItems st oid items).1 = .ok st' ∧
        st'.orders = st.orders ∧ st'.carts = st.carts ∧ st'.payments = st.payments ∧
        st'.orderItems = st.orderItems ++
          items.map (fun l => (⟨oid, l.product_id, l.quantity, l.price⟩ : OrderItem)) ∧
        (∀ l ∈ items, ∀ p, lookupA l.product_id st.products = some p →
          lookupA l.product_id st'.products =
            some { p with stock := p.stock - l.quantity }) ∧
        (∀ pid, pid ∉ items.map CartLine.product_id →
          lookupA pid st'.products = lookupA pid st.products) := by
  induction items with
  | nil =>
    intro st oid hnd hval
    refine ⟨st, by simp [processItems], rfl, rfl, rfl, by simp, ?_, fun pid _ => rfl⟩
    rintro l hl
    cases hl
  | cons hd tl ih =>
    intro st oid hnd hval
    obtain ⟨p, hp, hprice, hstockle⟩ := hval hd (List.mem_cons_self hd tl)
    have hs : ¬ p.stock < hd.quantity := by omega
    have hpe : processItem st oid hd = .ok { st with
        orderItems := st.orderItems ++ [⟨oid, hd.product_id, hd.quantity, p.price⟩],
        products := setA hd.product_id { p with stock := p.stock - hd.quantity }
          st.products } := by
      simp [processItem, hp, hs]
    set st1 : State := { st with
      orderItems := st.orderItems ++ [⟨oid, hd.product_id, hd.quantity, p.price⟩],
      products := setA hd.product_id { p with stock := p.stock - hd.quantity }
        st.products } with hst1
    have hnd' := hnd
    simp only [List.map_cons, List.nodup_cons] at hnd'
    obtain ⟨hnotin, hndtl⟩ := hnd'
    have hval1 : ∀ l ∈ tl, ∃ q, lookupA l.product_id st1.products = some q ∧
        l.price = q.price ∧ l.quantity ≤ q.stock := by
      intro l hl
      obtain ⟨q, hq, hqp, hqs⟩ := hval l (List.mem_cons_of_mem hd hl)
      have hne : hd.product_id ≠ l.product_id := by
        intro he
        apply hnotin
        rw [he]
        exact List.mem_map_of_mem CartLine.product_id hl
      refine ⟨q, ?_, hqp, hqs⟩
      rw [hst1]
      show lookupA l.product_id (setA hd.product_id _ st.products) = some q
      rw [lookupA_setA_ne _ _ _ _ hne]
      exact hq
    obtain ⟨st2, ih1, ih2, ih3, ih4, ih5, ih6, ih7⟩ := ih st1 oid hndtl hval1
    refine ⟨st2, ?_, ?_, ?_, ?_, ?_, ?_, ?_⟩
    · simp [processItems, hpe, ih1]
    · rw [ih2, hst1]
    · rw [ih3, hst1]
    · rw [ih4, hst1]
    · rw [ih5, hst1]
      show (st.orderItems ++ [⟨oid, hd.product_id, hd.quantity, p.price⟩]) ++
          tl.map (fun l => (⟨oid, l.product_id, l.quantity, l.price⟩ : OrderItem)) = _
      rw [List.append_assoc, List.singleton_append, ← hprice]
      rfl
    · intro l hl q hq
      rcases List.mem_cons.mp hl with rfl | hl
      · have hq' : q = p := by
          rw [hp] at hq
          injection hq with hq
          exact hq.symm
        subst hq'
        rw [ih7 l.product_id hnotin, hst1]
        show lookupA l.product_id (setA l.product_id _ st.products) = _
        rw [lookupA_setA_self]
      · have hne : hd.product_id ≠ l.product_id := by
          intro he
          apply hnotin
          rw [he]
          exact List.mem_map_of_mem CartLine.product_id hl
        have hq1 : lookupA l.product_id st1.products = some q := by
          rw [hst1]
          show lookupA l.product_id (setA hd.product_id _ st.products) = some q
          rw [lookupA_setA_ne _ _ _ _ hne]
          exact hq
        exact ih6 l hl q hq1
    · intro pid hpid
      simp only [List.map_cons, List.mem_cons] at hpid
      push_neg at hpid
      obtain ⟨hpid1, hpid2⟩ := hpid
      rw [ih7 pid hpid2, hst1]
      show lookupA pid (setA hd.product_id _ st.products) = _
      rw [lookupA_setA_ne _ _ _ _ (fun he => hpid1 he.symm)]

/-- C6 counterexample: the empty cart vacuously satisfies "each line passes
validation" (there are no lines, and none ever fails), yet checkout does not
succeed — it fails with the empty-cart error.  The claim as stated is
therefore false for cart states with no lines. -/
theorem checkout_empty_cart_cex :
    (∀ l ∈ get_cart_details stNoCart 7, lineOk stNoCart l = true) ∧
    (checkoutCreate stNoCart 7).1 = .error .emptyCart ∧
    (checkoutCreate stNoCart 7).2.1 = stNoCart :=
  ⟨by decide, rfl, rfl⟩

/-- C6 (amended): for every cart whose snapshot is nonempty and in which each
line passes validation (product exists, stock at least the held quantity),
checkout succeeds, decrements each involved product's stock by exactly the
held quantity, appends one OrderItem per line capturing the quantity and the
product's current unit price, and leaves the cart empty.  (The snapshot of a
real cart hash binds each product at most once; the Nodup hypothesis encodes
that representation invariant of the key→quantity mapping.) -/
theorem checkout_success_spec (st : State) (u : Nat)
    (hne : get_cart_details st u ≠ [])
    (hnd : ((get_cart_details st u).map CartLine.product_id).Nodup)
    (hok : ∀ l ∈ get_cart_details st u, lineOk st l = true) :
    (checkoutCreate st u).1 = .ok (newOrderId st) ∧
    (∀ l ∈ get_cart_details st u, ∀ p, lookupA l.product_id st.products = some p →
      lookupA l.product_id (checkoutCreate st u).2.1.products =
        some { p with stock := p.stock - l.quantity }) ∧
    (checkoutCreate st u).2.1.orderItems = st.orderItems ++
      (get_cart_details st u).map
        (fun l => (⟨newOrderId st, l.product_id, l.quantity, l.price⟩ : OrderItem)) ∧
    userCart (checkoutCreate st u).2.1 u = [] := by
  have hne' : (get_cart_details st u).isEmpty = false := by
    cases hi : get_cart_details st u with
    | nil => exact absurd hi hne
    | cons a as => rfl
  have hval : ∀ l ∈ get_cart_details st u,
      ∃ p, lookupA l.product_id st.products = some p ∧
        l.price = p.price ∧ l.quantity ≤ p.stock := by
    intro l hl
    obtain ⟨p, hp, hprice⟩ := mem_get_cart_details st u l hl
    refine ⟨p, hp, hprice, ?_⟩
    have := hok l hl
    simpa [lineOk, hp] using this
  obtain ⟨st2, h1, h2, h3, h4, h5, h6, h7⟩ :=
    processItems_ok_spec (get_cart_details st u)
      { st with orders := setA (newOrderId st) ⟨u, OrderStatus.pending⟩ st.orders }
      (newOrderId st) hnd hval
  cases hpair : processItems
      { st with orders := setA (newOrderId st) ⟨u, OrderStatus.pending⟩ st.orders }
      (newOrderId st) (get_cart_details st u) with
  | mk r evs =>
    rw [hpair] at h1
    cases r with
    | error e0 => exact Except.noConfusion h1
    | ok stx =>
      have hx : stx = st2 := by
        injection h1
      rw [hx] at hpair
      have hc : checkoutCreate st u =
          (.ok (newOrderId st), cartClear st2 u,
            Event.orderCreated :: evs ++ [.cartCleared, .txCommitted]) := by
        simp [checkoutCreate, hne', hpair]
      refine ⟨by rw [hc], ?_, ?_, ?_⟩
      · intro l hl p hp
        rw [hc]
        show lookupA l.product_id st2.products = _
        exact h6 l hl p hp
      · rw [hc]
        show st2.orderItems = _
        exact h5
      · rw [hc]
        simp [cartClear, userCart, lookupA_eraseA_self]

/-- Witness for C6's amended theorem: the one-line cart (3 of product 1,
stock 10) checks out: success, stock 7, one captured OrderItem, empty cart. -/
theorem checkout_success_spec_witness :
    (checkoutCreate stSmall 7).1 = .ok 1 ∧
    lookupA 1 (checkoutCreate stSmall 7).2.1.products = some ⟨"A", 100, 7⟩ ∧
    (checkoutCreate stSmall 7).2.1.orderItems = [⟨1, 1, 3, 100⟩] ∧
    userCart (checkoutCreate stSmall 7).2.1 7 = [] :=
  ⟨(checkout_success_spec stSmall 7 (by decide) (by decide) (by decide)).1,
   (checkout_success_spec stSmall 7 (by decide) (by decide) (by decide)).2.1
     ⟨1, "A", 100, 3, 300⟩ (by decide) ⟨"A", 100, 10⟩ rfl,
   (checkout_success_spec stSmall 7 (by decide) (by decide) (by decide)).2.2.1,
   (checkout_success_spec stSmall 7 (by decide) (by decide) (by decide)).2.2.2⟩

/-! ## Claim C5 — user cancellation of a pending order -/

/-- Boolean success discriminator for an `Except` result. -/
def resultOk {ε α : Type} : Except ε α → Bool
  | .ok _ => true
  | .error _ => false

/-- Success of the cancellation restock loop over items with pairwise
distinct products, each of which exists in the catalog: every item's
quantity is added back to its product's stock and nothing else changes. -/
theorem restoreItems_ok_spec (items : List OrderItem) :
    ∀ st, (items.map OrderItem.product).Nodup →
      (∀ it ∈ items, (lookupA it.product st.products).isSome = true) →
      ∃ st', restoreItems st items = .ok st' ∧
        st'.orders = st.orders ∧ st'.orderItems = st.orderItems ∧
        st'.carts = st.carts ∧ st'.payments = st.payments ∧
        (∀ it ∈ items, ∀ p, lookupA it.product st.products = some p →
          lookupA it.product st'.products =
            some { p with stock := p.stock + it.quantity }) ∧
        (∀ pid, pid ∉ items.map OrderItem.product →
          lookupA pid st'.products = lookupA pid st.products) := by
  induction items with
  | nil =>
    intro st hnd hex
    refine ⟨st, rfl, rfl, rfl, rfl, rfl, ?_, fun pid _ => rfl⟩
    rintro it hit
    cases hit
  | cons hd tl ih =>
    intro st hnd hex
    obtain ⟨p, hp⟩ := Option.isSome_iff_exists.mp (hex hd (List.mem_cons_self hd tl))
    have hre : restoreItems st (hd :: tl) = restoreItems { st with
        products := setA hd.product { p with stock := p.stock + hd.quantity }
          st.products } tl := by
      simp [restoreItems, hp]
    set st1 : State := { st with
      products := setA hd.product { p with stock := p.stock + hd.quantity }
        st.products } with hst1
    have hnd' := hnd
    simp only [List.map_cons, List.nodup_cons] at hnd'
    obtain ⟨hnotin, hndtl⟩ := hnd'
    have hex1 : ∀ it ∈ tl, (lookupA it.product st1.products).isSome = true := by
      intro it hit
      have hne : hd.product ≠ it.product := by
        intro he
        apply hnotin
        rw [he]
        exact List.mem_map_of_mem OrderItem.product hit
      rw [hst1]
      show (lookupA it.product (setA hd.product _ st.products)).isSome = true
      rw [lookupA_setA_ne _ _ _ _ hne]
      exact hex it (List.mem_cons_of_mem hd hit)
    obtain ⟨st2, ih1, ih2, ih3, ih4, ih5, ih6, ih7⟩ := ih st1 hndtl hex1
    refine ⟨st2, by rw [hre, ih1], by rw [ih2, hst1], by rw [ih3, hst1],
      by rw [ih4, hst1], by rw [ih5, hst1], ?_, ?_⟩
    · intro it hit q hq
      rcases List.mem_cons.mp hit with rfl | hit
      · have hq' : q = p := by
          rw [hp] at hq
          injection hq with hq
          exact hq.symm
        subst hq'
        rw [ih7 it.product hnotin, hst1]
        show lookupA it.product (setA it.product _ st.products) = _
        rw [lookupA_setA_self]
      · have hne : hd.product ≠ it.product := by
          intro he
          apply hnotin
          rw [he]
          exact List.mem_map_of_mem OrderItem.product hit
        have hq1 : lookupA it.product st1.products = some q := by
          rw [hst1]
          show lookupA it.product (setA hd.product _ st.products) = some q
          rw [lookupA_setA_ne _ _ _ _ hne]
          exact hq
        exact ih6 it hit q hq1
    · intro pid hpid
      simp only [List.map_cons, List.mem_cons] at hpid
      push_neg at hpid
      obtain ⟨hpid1, hpid2⟩ := hpid
      rw [ih7 pid hpid2, hst1]
      show lookupA pid (setA hd.product _ st.products) = _
      rw [lookupA_setA_ne _ _ _ _ (fun he => hpid1 he.symm)]

/-- C5: cancellation of an owned order succeeds only when its status is
exactly `pending` (any other status raises and nothing changes, since the
transaction rolls back); on success every OrderItem's quantity is added back
to its product's stock and the status is set to `canceled` in the same
transaction, and a second cancel of the same order fails with the
invalid-state error, leaving the (now canceled) state untouched.  (Items of
one order reference pairwise distinct products — checkout creates one
OrderItem per cart line — and each referenced product must exist.) -/
theorem cancel_spec (st : State) (u oid : Nat) (o : Order)
    (hord : lookupA oid st.orders = some o) (hown : o.user = u) :
    (o.status ≠ OrderStatus.pending → cancelOrder st u oid = .error .invalidState) ∧
    (o.status = OrderStatus.pending →
      ((st.orderItems.filter fun it => it.order = oid).map OrderItem.product).Nodup →
      (∀ it ∈ st.orderItems.filter fun it => it.order = oid,
        (lookupA it.product st.products).isSome = true) →
      resultOk (cancelOrder st u oid) = true ∧
      (∀ st', cancelOrder st u oid = .ok st' →
        lookupA oid st'.orders = some { o with status := OrderStatus.canceled } ∧
        (∀ it ∈ st.orderItems.filter fun it => it.order = oid, ∀ p,
          lookupA it.product st.products = some p →
          lookupA it.product st'.products =
            some { p with stock := p.stock + it.quantity }) ∧
        cancelOrder st' u oid = .error .invalidState)) := by
  constructor
  · intro hst
    simp [cancelOrder, hord, hown, hst]
  · intro hpend hnd hex
    obtain ⟨st1, hr1, hr2, hr3, hr4, hr5, hr6, hr7⟩ :=
      restoreItems_ok_spec (st.orderItems.filter fun it => it.order = oid) st hnd hex
    have hco : cancelOrder st u oid = .ok { st1 with
        orders := setA oid { o with status := OrderStatus.canceled } st1.orders } := by
      simp [cancelOrder, hord, hown, hpend, hr1]
    refine ⟨by rw [hco]; rfl, ?_⟩
    intro st' hst'
    rw [hco] at hst'
    injection hst' with hst'
    subst hst'
    have hlook : lookupA oid
        ({ st1 with
          orders := setA oid { o with status := OrderStatus.canceled } st1.orders } :
            State).orders =
        some { o with status := OrderStatus.canceled } := lookupA_setA_self _ _ _
    refine ⟨hlook, ?_, ?_⟩
    · intro it hit p hp
      exact hr6 it hit p hp
    · simp [cancelOrder, hown, lookupA_setA_self]

/-- The state after canceling order 1 of `stCancel`: stock restored from 7
to 10 and the order flipped to `canceled`. -/
def stCancelAfter : State :=
  ⟨[(1, ⟨"A", 100, 10⟩)], [(1, ⟨7, OrderStatus.canceled⟩)], [⟨1, 1, 3, 100⟩], [], []⟩

/-- Witness for C5: canceling pending order 1 (3 units of product 1, stock 7)
succeeds, sets the status to `canceled`, restores the stock to 10, and a
second cancel fails with the invalid-state error. -/
theorem cancel_spec_witness :
    resultOk (cancelOrder stCancel 7 1) = true ∧
    lookupA 1 stCancelAfter.orders = some ⟨7, OrderStatus.canceled⟩ ∧
    lookupA 1 stCancelAfter.products = some ⟨"A", 100, 10⟩ ∧
    cancelOrder stCancelAfter 7 1 = .error .invalidState :=
  ⟨((cancel_spec stCancel 7 1 ⟨7, OrderStatus.pending⟩ rfl rfl).2 rfl
      (by decide) (by decide)).1,
   (((cancel_spec stCancel 7 1 ⟨7, OrderStatus.pending⟩ rfl rfl).2 rfl
      (by decide) (by decide)).2 stCancelAfter rfl).1,
   (((cancel_spec stCancel 7 1 ⟨7, OrderStatus.pending⟩ rfl rfl).2 rfl
      (by decide) (by decide)).2 stCancelAfter rfl).2.1
     ⟨1, 1, 3, 100⟩ (by decide) ⟨"A", 100, 7⟩ rfl,
   (((cancel_spec stCancel 7 1 ⟨7, OrderStatus.pending⟩ rfl rfl).2 rfl
      (by decide) (by decide)).2 stCancelAfter rfl).2.2⟩

end ECommerce
